import Mathlib

/-!
# Verification of the firestarter Tool Orchestration Engine

A shallow embedding, in Lean 4, of the core of the firestarter backend:

* `backend/app/tools/executor.py` — command synthesis (`build_command_args`),
  captured execution (`execute`), the in-process implementation path
  (`_run_implementation`), the PTY streaming loop (`_stream_pty`) and the
  execution history (`_record_history`);
* `backend/app/tools/specs/` — the declarative tool registry (the `recon`,
  `scanning` and `web` spec modules present in the source tree; the
  `vulnerability` and `exploitation` modules are not part of the source
  tree and are not embedded);
* `backend/app/schemas/session.py` — session state, pending actions;
* `backend/app/agents/orchestrator.py` — the risk-gated HITL/auto
  confirmation state machine (`handle_request` decision step,
  `confirm_action`);
* `backend/app/tools/tool_rag.py` — the semantic search entry point
  (`ToolRAG.search`).

Python strings are modelled as `List Char` (`Str`); Python dicts as
insertion-ordered association lists (lookup takes the first matching key,
as a Python dict's unique-key lookup does).  External effects (the LLM,
the embedding backend, the database, the child process, the wall clock)
are supplied as explicit oracle inputs.  Prose-only fields of the data
model (descriptions, install hints, RAG text) are omitted from the
embedding; every operationally relevant field is kept.
-/

set_option maxHeartbeats 1000000

namespace Firestarter

/-- Python strings, modelled as lists of characters. -/
abbrev Str := List Char

/-- Coerce a Lean string literal to the `Str` model. -/
def str (s : String) : Str := s.data

/-- `s` contains neither `{` nor `}` (no literal brace characters). -/
def noBrace (s : Str) : Bool := s.all (fun c => !(c == '{') && !(c == '}'))

/-- Python's `str.replace(pat, rep)` — replace every non-overlapping
occurrence of `pat`, scanning left to right — written with explicit fuel
so that the definition is structurally recursive (the fuel bounds the
number of scanning steps; `s.length` always suffices).  The code only
ever calls it with the nonempty pattern `"{" + key + "}"`. -/
def pyReplaceF : Nat → Str → Str → Str → Str
  | 0, s, _, _ => s
  | _ + 1, [], _, _ => []
  | fuel + 1, c :: rest, pat, rep =>
    if pat ≠ [] ∧ pat.isPrefixOf (c :: rest) then
      rep ++ pyReplaceF fuel ((c :: rest).drop pat.length) pat rep
    else
      c :: pyReplaceF fuel rest pat rep

/-- Python's `str.replace` on the `Str` model. -/
def pyReplace (s pat rep : Str) : Str := pyReplaceF s.length s pat rep

/-- A scan whose pattern starts with a character absent from `s` leaves `s`
unchanged (for any fuel). -/
theorem pyReplaceF_head_not_mem (fuel : Nat) (s pat rep : Str) (c : Char)
    (hp : pat.head? = some c) (hc : c ∉ s) :
    pyReplaceF fuel s pat rep = s := by
  induction fuel generalizing s with
  | zero => rfl
  | succ n ih =>
    cases s with
    | nil => rfl
    | cons a rest =>
      have hpa : ¬ (pat ≠ [] ∧ pat.isPrefixOf (a :: rest)) := by
        rintro ⟨hne, hpre⟩
        cases pat with
        | nil => exact hne rfl
        | cons p ps =>
          simp only [List.head?_cons, Option.some.injEq] at hp
          simp only [List.isPrefixOf_cons₂] at hpre
          have hpeq : p = a := by
            have h2 := hpre
            simp only [Bool.and_eq_true, beq_iff_eq] at h2
            exact h2.1
          subst hp
          subst hpeq
          exact hc (List.mem_cons_self p rest)
      rw [pyReplaceF, if_neg hpa]
      have ha : c ∉ rest := fun h => hc (List.mem_cons_of_mem _ h)
      rw [ih rest ha]

/-- `pyReplace` with a brace-opening pattern is the identity on brace-free
strings. -/
theorem pyReplace_brace_pattern_id (s k rep : Str) (hs : noBrace s = true) :
    pyReplace s ('{' :: k) rep = s := by
  apply pyReplaceF_head_not_mem _ _ _ _ '{' (by rfl)
  intro hmem
  have := List.all_eq_true.mp hs '{' hmem
  simp at this

/-- Membership transported along a boolean list-prefix test. -/
theorem mem_of_isPrefixOf {l₁ l₂ : Str} (h : l₁.isPrefixOf l₂ = true)
    {c : Char} (hc : c ∈ l₁) : c ∈ l₂ := by
  induction l₁ generalizing l₂ with
  | nil => cases hc
  | cons a t ih =>
    cases l₂ with
    | nil => simp [List.isPrefixOf] at h
    | cons b t2 =>
      simp only [List.isPrefixOf_cons₂, Bool.and_eq_true, beq_iff_eq] at h
      rcases List.mem_cons.mp hc with h1 | h1
      · exact h1 ▸ h.1 ▸ List.mem_cons_self b t2
      · exact List.mem_cons_of_mem b (ih h.2 h1)

/-- On a brace-free body `p` and brace-free suffix `sfx`, the pattern
`k ++ "}"` is a prefix of `p ++ "}" ++ sfx` exactly when `k = p`:
the first closing brace pins down the placeholder name. -/
theorem isPrefixOf_brace_close (p sfx : Str) (hp : noBrace p = true)
    (hs : noBrace sfx = true) (k : Str) :
    (k ++ ['}']).isPrefixOf (p ++ '}' :: sfx) = true ↔ k = p := by
  induction p generalizing k with
  | nil =>
    cases k with
    | nil => simp [List.isPrefixOf]
    | cons b k2 =>
      simp only [List.nil_append, List.cons_append, List.isPrefixOf_cons₂,
        Bool.and_eq_true, beq_iff_eq]
      constructor
      · rintro ⟨hb, hpre⟩
        exfalso
        have hmem : '}' ∈ sfx := mem_of_isPrefixOf hpre (by simp)
        have := List.all_eq_true.mp hs '}' hmem
        simp at this
      · intro h
        exact absurd h (by simp)
  | cons a p2 ih =>
    have ha : ¬(a == '{') = true ∧ ¬(a == '}') = true := by
      have := List.all_eq_true.mp hp a (List.mem_cons_self a p2)
      simp only [Bool.and_eq_true, Bool.not_eq_true'] at this
      constructor <;> simp [this.1, this.2]
    have hp2 : noBrace p2 = true := by
      apply List.all_eq_true.mpr
      intro c hc
      exact List.all_eq_true.mp hp c (List.mem_cons_of_mem a hc)
    cases k with
    | nil =>
      simp only [List.nil_append, List.cons_append, List.isPrefixOf_cons₂,
        Bool.and_eq_true, beq_iff_eq]
      constructor
      · rintro ⟨hb, -⟩
        exact absurd hb.symm (by simpa using ha.2)
      · intro h
        exact absurd h (by simp)
    | cons b k2 =>
      simp only [List.cons_append, List.isPrefixOf_cons₂, Bool.and_eq_true,
        beq_iff_eq, ih hp2 k2, List.cons.injEq]

/-- Substituting the pattern `"{" ++ k ++ "}"` into the placeholder token
`"{" ++ p ++ "}" ++ sfx` (brace-free `p` and `sfx`) replaces the
placeholder body when `k = p` and leaves the token untouched otherwise. -/
theorem pyReplace_placeholder_token (p sfx k rep : Str)
    (hp : noBrace p = true) (hs : noBrace sfx = true) :
    pyReplace ('{' :: (p ++ '}' :: sfx)) ('{' :: (k ++ ['}'])) rep =
      if k = p then rep ++ sfx else '{' :: (p ++ '}' :: sfx) := by
  rw [pyReplace]
  rw [show ('{' :: (p ++ '}' :: sfx)).length = (p ++ '}' :: sfx).length + 1 from rfl]
  rw [pyReplaceF]
  by_cases hk : k = p
  · subst hk
    have hguard : ('{' :: (k ++ ['}'])) ≠ [] ∧
        ('{' :: (k ++ ['}'])).isPrefixOf ('{' :: (k ++ '}' :: sfx)) = true := by
      refine ⟨by simp, ?_⟩
      simp only [List.isPrefixOf_cons₂]
      rw [Bool.and_eq_true]
      exact ⟨by simp, (isPrefixOf_brace_close k sfx hp hs k).mpr rfl⟩
    rw [if_pos hguard, if_pos rfl]
    have hdrop : (('{' :: (k ++ '}' :: sfx)).drop ('{' :: (k ++ ['}'])).length) = sfx := by
      have h1 : ('{' :: (k ++ '}' :: sfx)) = ('{' :: (k ++ ['}'])) ++ sfx := by
        simp
      rw [h1, List.drop_left]
    rw [hdrop, pyReplaceF_head_not_mem _ _ _ _ '{' (by rfl)]
    intro hmem
    have := List.all_eq_true.mp hs '{' hmem
    simp at this
  · have hguard : ¬(('{' :: (k ++ ['}'])) ≠ [] ∧
        ('{' :: (k ++ ['}'])).isPrefixOf ('{' :: (p ++ '}' :: sfx)) = true) := by
      rintro ⟨-, hpre⟩
      simp only [List.isPrefixOf_cons₂] at hpre
      rw [Bool.and_eq_true] at hpre
      exact hk ((isPrefixOf_brace_close p sfx hp hs k).mp hpre.2)
    rw [if_neg hguard, if_neg hk]
    rw [pyReplaceF_head_not_mem _ _ _ _ '{' (by rfl)]
    intro hmem
    rcases List.mem_append.mp hmem with h | h
    · have := List.all_eq_true.mp hp '{' h
      simp at this
    · rcases List.mem_cons.mp h with h | h
      · exact absurd h (by simp)
      · have := List.all_eq_true.mp hs '{' h
        simp at this

/-! ## Tool registry data model (`backend/app/tools/specs/__init__.py`) -/

/-- `CommandTemplate` from `specs/__init__.py` (the prose `description`
field is omitted). -/
structure CommandTemplate where
  args : List Str
  timeout : Nat := 300
  requiresSudo : Bool := false
  outputFormat : Str := str "text"
  successCodes : List Int := [0]
deriving DecidableEq, Repr

/-- `ToolSpec` from `specs/__init__.py` (prose fields — `description`,
`install_hint`, `rag_description`, `when_to_use`, `category` — omitted).
`commands` is the insertion-ordered command-name → template dict. -/
structure ToolSpec where
  name : Str
  executableNames : List Str
  commands : List (Str × CommandTemplate)
  executablePath : Option Str := none
  isAvailable : Bool := false
  aliases : List Str := []
  implementation : Option Str := none
deriving DecidableEq, Repr

/-- The part of `ToolExecutor`'s state that command synthesis reads:
the name → spec dict and the alias → name dict built by `_load_specs`. -/
structure ExecState where
  specs : List (Str × ToolSpec)
  aliases : List (Str × Str)
deriving DecidableEq, Repr

/-- `ToolExecutor.get_tool`: direct name lookup, then alias lookup. -/
def getTool (ex : ExecState) (name : Str) : Option ToolSpec :=
  match List.lookup name ex.specs with
  | some s => some s
  | none =>
    match List.lookup name ex.aliases with
    | some tn => List.lookup tn ex.specs
    | none => none

/-! ## Command synthesis (`ToolExecutor.build_command_args`) -/

/-- The `for fallback in ['domain','url','host','ip','address']` loop:
first present fallback key's value. -/
def firstFallback (norm : List (Str × Str)) : List Str → Option Str
  | [] => none
  | f :: fs =>
    match List.lookup f norm with
    | some v => some v
    | none => firstFallback norm fs

/-- Python `str.startswith(tuple)`. -/
def pyStartsWithAny (s : Str) (pres : List Str) : Bool :=
  pres.any (fun p => p.isPrefixOf s)

/-- `if 'target' not in norm_params: for fallback in [...]` — derive
`target` from the first present fallback key (a Python dict assignment
of a new key appends it at the end of the iteration order). -/
def normTarget (norm : List (Str × Str)) : List (Str × Str) :=
  match List.lookup (str "target") norm with
  | some _ => norm
  | none =>
    match firstFallback norm
        [str "domain", str "url", str "host", str "ip", str "address"] with
    | some v => norm ++ [(str "target", v)]
    | none => norm

/-- `if 'domain' not in norm_params and 'target' in norm_params`. -/
def normDomain (norm : List (Str × Str)) : List (Str × Str) :=
  match List.lookup (str "domain") norm, List.lookup (str "target") norm with
  | none, some t => norm ++ [(str "domain", t)]
  | _, _ => norm

/-- `if 'url' not in norm_params and 'target' in norm_params`, with the
`http://` prefixing of scheme-less targets. -/
def normUrl (norm : List (Str × Str)) : List (Str × Str) :=
  match List.lookup (str "url") norm, List.lookup (str "target") norm with
  | none, some t =>
    let val := if pyStartsWithAny t [str "http://", str "https://"] then t
               else str "http://" ++ t
    norm ++ [(str "url", val)]
  | _, _ => norm

/-- The parameter normalization block of `build_command_args`:
`norm_params = dict(params)` followed by the three derivations, in
source order. -/
def normalizeParams (params : List (Str × Str)) : List (Str × Str) :=
  normUrl (normDomain (normTarget params))

/-- The literal pattern `f"{{{key}}}"`, i.e. `"{" + key + "}"`. -/
def substPattern (key : Str) : Str := '{' :: (key ++ ['}'])

/-- The inner `for key, value in norm_params.items(): arg = arg.replace(...)`
loop applied to one template token. -/
def substToken (norm : List (Str × Str)) (arg : Str) : Str :=
  norm.foldl (fun a kv => pyReplace a (substPattern kv.1) kv.2) arg

/-- Python exceptions raised by `build_command_args`: `ValueError` for
unknown tool/command, `KeyError` for an unresolved template placeholder. -/
inductive ExecError where
  | valueError (msg : Str)
  | keyError (msg : Str)
deriving DecidableEq, Repr

/-- The token loop of `build_command_args`: substitute each token that
contains both brace delimiters, fail on a remaining `{`, append. -/
def substAndCheck (norm : List (Str × Str)) : List Str → Except ExecError (List Str)
  | [] => .ok []
  | a :: rest =>
    if a.contains '{' && a.contains '}' then
      let a2 := substToken norm a
      if a2.contains '{' then
        .error (.keyError (str "Missing required parameter in template: " ++ a2))
      else
        match substAndCheck norm rest with
        | .ok rs => .ok (a2 :: rs)
        | .error e => .error e
    else
      match substAndCheck norm rest with
      | .ok rs => .ok (a :: rs)
      | .error e => .error e

/-- The first argument-vector element: the resolved executable path, or
the bare tool name as a last-resort literal. -/
def exeOf (spec : ToolSpec) : Str :=
  match spec.executablePath with
  | some p => p
  | none => spec.name

/-- The ASCII single-quote character used in the unknown-command message. -/
def quoteChar : Char := Char.ofNat 39

/-- `ToolExecutor.build_command_args`. -/
def buildCommandArgs (ex : ExecState) (toolName cmdName : Str)
    (params : List (Str × Str)) : Except ExecError (List Str) :=
  match getTool ex toolName with
  | none => .error (.valueError (str "Unknown tool: " ++ toolName))
  | some spec =>
    match List.lookup cmdName spec.commands with
    | none =>
      .error (.valueError (str "Unknown command " ++ [quoteChar] ++ cmdName ++
        [quoteChar] ++ str " for tool " ++ [quoteChar] ++ toolName ++ [quoteChar]))
    | some template =>
      let norm := normalizeParams params
      match substAndCheck norm template.args with
      | .ok rest => .ok (exeOf spec :: rest)
      | .error e => .error e

/-! ## Substitution lemmas -/

/-- Every value in the parameter mapping is brace-free. -/
def valuesNoBrace (ps : List (Str × Str)) : Bool :=
  ps.all (fun kv => noBrace kv.2)

theorem substToken_noBrace (norm : List (Str × Str)) (a : Str)
    (ha : noBrace a = true) : substToken norm a = a := by
  induction norm generalizing a with
  | nil => rfl
  | cons kv rest ih =>
    show List.foldl _ _ _ = _
    rw [List.foldl_cons]
    have h1 : pyReplace a (substPattern kv.1) kv.2 = a :=
      pyReplace_brace_pattern_id a _ kv.2 ha
    rw [h1]
    exact ih a ha

theorem lookup_mem_values {α β : Type} [BEq α] {ps : List (α × β)} {k : α} {v : β}
    (h : List.lookup k ps = some v) : ∃ k2, (k2, v) ∈ ps := by
  induction ps with
  | nil => simp [List.lookup] at h
  | cons kv rest ih =>
    rw [List.lookup] at h
    by_cases hk : (k == kv.1) = true
    · rw [hk] at h
      have : kv.2 = v := Option.some.injEq .. ▸ h
      exact ⟨kv.1, by simp [← this]⟩
    · rw [Bool.not_eq_true] at hk
      rw [hk] at h
      obtain ⟨k2, hmem⟩ := ih h
      exact ⟨k2, List.mem_cons_of_mem _ hmem⟩

theorem lookup_value_noBrace {ps : List (Str × Str)} {k v : Str}
    (hv : valuesNoBrace ps = true) (h : List.lookup k ps = some v) :
    noBrace v = true := by
  obtain ⟨k2, hmem⟩ := lookup_mem_values h
  exact List.all_eq_true.mp hv (k2, v) hmem

theorem noBrace_append {a b : Str} (ha : noBrace a = true)
    (hb : noBrace b = true) : noBrace (a ++ b) = true := by
  simp only [noBrace, List.all_append, Bool.and_eq_true]
  exact ⟨ha, hb⟩

/-- Folding the whole normalized parameter mapping over a placeholder
token substitutes the first binding of the placeholder body (a Python
dict has unique keys, so lookup of the first binding is dict lookup),
and leaves the token untouched when no binding exists. -/
theorem substToken_placeholder (norm : List (Str × Str)) (p sfx : Str)
    (hvals : valuesNoBrace norm = true)
    (hp : noBrace p = true) (hs : noBrace sfx = true) :
    substToken norm ('{' :: (p ++ '}' :: sfx)) =
      match List.lookup p norm with
      | some v => v ++ sfx
      | none => '{' :: (p ++ '}' :: sfx) := by
  induction norm with
  | nil => rfl
  | cons kv rest ih =>
    have hvrest : valuesNoBrace rest = true := by
      apply List.all_eq_true.mpr
      intro x hx
      exact List.all_eq_true.mp hvals x (List.mem_cons_of_mem _ hx)
    have hvkv : noBrace kv.2 = true :=
      List.all_eq_true.mp hvals kv (List.mem_cons_self kv rest)
    show List.foldl _ _ _ = _
    rw [List.foldl_cons]
    have hstep := pyReplace_placeholder_token p sfx kv.1 kv.2 hp hs
    rw [show (substPattern kv.1) = '{' :: (kv.1 ++ ['}']) from rfl] at *
    by_cases hk : kv.1 = p
    · rw [hstep, if_pos hk]
      have hnb : noBrace (kv.2 ++ sfx) = true := noBrace_append hvkv hs
      have hfold : List.foldl (fun a kv2 => pyReplace a (substPattern kv2.1) kv2.2)
          (kv.2 ++ sfx) rest = kv.2 ++ sfx := substToken_noBrace rest _ hnb
      rw [hfold, List.lookup]
      rw [show (p == kv.1) = true by simp [hk]]
    · rw [hstep, if_neg hk]
      rw [List.lookup]
      rw [show (p == kv.1) = false by simp [Ne.symm hk]]
      exact ih hvrest

/-! ## Well-shaped tokens

Every template token of the embedded registry is either brace-free or a
single placeholder `"{" ++ p ++ "}"` followed by a brace-free suffix.
`placeholderSplit` extracts the body/suffix split and `tokenOKb` is the
decidable shape test. -/

/-- Split `rest` (the tail of a token starting with `{`) at its first
closing brace, provided the body contains no brace at all. -/
def placeholderSplit : Str → Option (Str × Str)
  | [] => none
  | c :: rest =>
    if c = '}' then some ([], rest)
    else if c = '{' then none
    else
      match placeholderSplit rest with
      | some (p, sfx) => some (c :: p, sfx)
      | none => none

theorem placeholderSplit_spec {rest p sfx : Str}
    (h : placeholderSplit rest = some (p, sfx)) :
    rest = p ++ '}' :: sfx ∧ noBrace p = true := by
  induction rest generalizing p with
  | nil => simp [placeholderSplit] at h
  | cons c t ih =>
    rw [placeholderSplit] at h
    by_cases h1 : c = '}'
    · rw [if_pos h1] at h
      have h2 : (([], t) : Str × Str) = (p, sfx) := by injection h
      have hp : p = ([] : Str) := (congrArg (fun x => x.1) h2).symm
      have hsfx : sfx = t := (congrArg (fun x => x.2) h2).symm
      subst hp; subst hsfx; subst h1
      exact ⟨rfl, rfl⟩
    · rw [if_neg h1] at h
      by_cases h2 : c = '{'
      · rw [if_pos h2] at h; cases h
      · rw [if_neg h2] at h
        cases hsp : placeholderSplit t with
        | none => rw [hsp] at h; cases h
        | some pr =>
          obtain ⟨p0, sfx0⟩ := pr
          rw [hsp] at h
          have hps : (c :: p0, sfx0) = (p, sfx) := Option.some.injEq .. ▸ h
          have hp0 : c :: p0 = p := congrArg (·.1) hps
          have hsfx0 : sfx0 = sfx := congrArg (·.2) hps
          obtain ⟨ht, hnb⟩ := ih (hsfx0 ▸ hsp)
          subst hp0
          constructor
          · simp [ht]
          · simp only [noBrace, List.all_cons, Bool.and_eq_true]
            exact ⟨by simp [h1, h2], hnb⟩

/-- A token is well-shaped: brace-free, or `"{" ++ body ++ "}" ++ sfx`
with brace-free body and suffix. -/
def tokenOKb (t : Str) : Bool :=
  match t with
  | [] => true
  | c :: rest =>
    if c = '{' then
      match placeholderSplit rest with
      | some (_, sfx) => noBrace sfx
      | none => false
    else noBrace (c :: rest)

/-- The placeholder body of a well-shaped placeholder token. -/
def tokenPlaceholder (t : Str) : Option Str :=
  match t with
  | [] => none
  | c :: rest =>
    if c = '{' then (placeholderSplit rest).map (fun pr => pr.1) else none

theorem noBrace_contains_open {s : Str} (h : noBrace s = true) :
    s.contains '{' = false := by
  cases hc : s.contains '{' with
  | false => rfl
  | true =>
    have hmem : '{' ∈ s := List.mem_of_elem_eq_true hc
    have := List.all_eq_true.mp h '{' hmem
    simp at this

theorem contains_of_mem {s : Str} {c : Char} (h : c ∈ s) :
    s.contains c = true := List.elem_eq_true_of_mem h

theorem noBrace_not_mem {s : Str} (h : noBrace s = true) :
    '{' ∉ s ∧ '}' ∉ s := by
  constructor <;> intro hmem <;>
    · have := List.all_eq_true.mp h _ hmem
      simp at this

/-- On well-shaped tokens whose placeholders are all bound to brace-free
values, the token loop of `build_command_args` succeeds and every
produced token is brace-free. -/
theorem substAndCheck_ok (norm : List (Str × Str))
    (hvals : valuesNoBrace norm = true) (args : List Str)
    (htok : ∀ a ∈ args, tokenOKb a = true)
    (hkeys : ∀ a ∈ args, ∀ p, tokenPlaceholder a = some p →
      (List.lookup p norm).isSome = true) :
    ∃ out, substAndCheck norm args = .ok out ∧ ∀ o ∈ out, noBrace o = true := by
  induction args with
  | nil => exact ⟨[], rfl, by simp⟩
  | cons a rest ih =>
    obtain ⟨out, hout, hnb⟩ :=
      ih (fun x hx => htok x (List.mem_cons_of_mem a hx))
         (fun x hx => hkeys x (List.mem_cons_of_mem a hx))
    have hta := htok a (List.mem_cons_self a rest)
    rw [substAndCheck]
    cases a with
    | nil =>
      rw [show (([] : Str).contains '{' && ([] : Str).contains '}') = false from rfl]
      rw [if_neg (by simp)]
      rw [hout]
      exact ⟨[] :: out, rfl, by
        intro o ho
        rcases List.mem_cons.mp ho with h | h
        · subst h; rfl
        · exact hnb o h⟩
    | cons c rest0 =>
      by_cases hc : c = '{'
      · subst hc
        rw [tokenOKb, if_pos rfl] at hta
        cases hsp : placeholderSplit rest0 with
        | none => rw [hsp] at hta; cases hta
        | some pr =>
          obtain ⟨p, sfx⟩ := pr
          rw [hsp] at hta
          obtain ⟨hrest0, hpnb⟩ := placeholderSplit_spec hsp
          subst hrest0
          have hpl : tokenPlaceholder ('{' :: (p ++ '}' :: sfx)) = some p := by
            rw [tokenPlaceholder, if_pos rfl, hsp]
            rfl
          have hlk := hkeys _ (List.mem_cons_self _ rest) p hpl
          cases hv : List.lookup p norm with
          | none => rw [hv] at hlk; cases hlk
          | some v =>
            have hvnb : noBrace v = true := lookup_value_noBrace hvals hv
            have hcond : (('{' :: (p ++ '}' :: sfx)).contains '{' &&
                ('{' :: (p ++ '}' :: sfx)).contains '}') = true := by
              rw [contains_of_mem (List.mem_cons_self _ _),
                  contains_of_mem (by
                    apply List.mem_cons_of_mem
                    exact List.mem_append_right p (List.mem_cons_self _ _))]
              rfl
            rw [if_pos hcond]
            have hsub : substToken norm ('{' :: (p ++ '}' :: sfx)) = v ++ sfx := by
              rw [substToken_placeholder norm p sfx hvals hpnb hta, hv]
            rw [hsub]
            have hnbvs : noBrace (v ++ sfx) = true := noBrace_append hvnb hta
            refine ⟨(v ++ sfx) :: out, ?_, ?_⟩
            · simp only [hout]
              simp [hout]
              exact ⟨(noBrace_not_mem hvnb).1, (noBrace_not_mem hta).1⟩
            · intro o ho
              rcases List.mem_cons.mp ho with h | h
              · subst h; exact hnbvs
              · exact hnb o h
      · rw [tokenOKb, if_neg hc] at hta
        have hcond : ((c :: rest0).contains '{' && (c :: rest0).contains '}') = false := by
          rw [noBrace_contains_open hta]
          rfl
        rw [if_neg (by rw [hcond]; simp)]
        rw [hout]
        exact ⟨(c :: rest0) :: out, rfl, by
          intro o ho
          rcases List.mem_cons.mp ho with h | h
          · subst h; exact hta
          · exact hnb o h⟩

/-! ## Normalization preserves brace-free values -/

theorem firstFallback_noBrace {norm : List (Str × Str)} {fs : List Str} {v : Str}
    (hvals : valuesNoBrace norm = true) (h : firstFallback norm fs = some v) :
    noBrace v = true := by
  induction fs with
  | nil => simp [firstFallback] at h
  | cons f ft ih =>
    rw [firstFallback] at h
    cases hl : List.lookup f norm with
    | some w =>
      rw [hl] at h
      have : w = v := Option.some.injEq .. ▸ h
      exact this ▸ lookup_value_noBrace hvals hl
    | none =>
      rw [hl] at h
      exact ih h

theorem valuesNoBrace_append_one {ps : List (Str × Str)} {k v : Str}
    (hps : valuesNoBrace ps = true) (hv : noBrace v = true) :
    valuesNoBrace (ps ++ [(k, v)]) = true := by
  simp only [valuesNoBrace, List.all_append, Bool.and_eq_true]
  exact ⟨hps, by simp [hv]⟩

theorem normTarget_values {ps : List (Str × Str)}
    (h : valuesNoBrace ps = true) : valuesNoBrace (normTarget ps) = true := by
  rw [normTarget]
  cases h1 : List.lookup (str "target") ps with
  | some _ => exact h
  | none =>
    cases h2 : firstFallback ps
        [str "domain", str "url", str "host", str "ip", str "address"] with
    | some v => exact valuesNoBrace_append_one h (firstFallback_noBrace h h2)
    | none => exact h

theorem normDomain_values {ps : List (Str × Str)}
    (h : valuesNoBrace ps = true) : valuesNoBrace (normDomain ps) = true := by
  rw [normDomain]
  cases h1 : List.lookup (str "domain") ps with
  | some _ => exact h
  | none =>
    cases h2 : List.lookup (str "target") ps with
    | some t => exact valuesNoBrace_append_one h (lookup_value_noBrace h h2)
    | none => exact h

theorem normUrl_values {ps : List (Str × Str)}
    (h : valuesNoBrace ps = true) : valuesNoBrace (normUrl ps) = true := by
  rw [normUrl]
  cases h1 : List.lookup (str "url") ps with
  | some _ => exact h
  | none =>
    cases h2 : List.lookup (str "target") ps with
    | some t =>
      have ht : noBrace t = true := lookup_value_noBrace h h2
      by_cases h3 : pyStartsWithAny t [str "http://", str "https://"] = true
      · simp only [h3, if_true]
        exact valuesNoBrace_append_one h ht
      · simp only [Bool.not_eq_true] at h3
        simp only [h3, Bool.false_eq_true, if_false]
        exact valuesNoBrace_append_one h (noBrace_append (by decide) ht)
    | none => exact h

/-- `dict(params)` plus the derivations keeps all values brace-free when
the caller-supplied values are brace-free. -/
theorem normalizeParams_values {ps : List (Str × Str)}
    (h : valuesNoBrace ps = true) : valuesNoBrace (normalizeParams ps) = true :=
  normUrl_values (normDomain_values (normTarget_values h))

/-! ## Synthesis: success and failure lemmas -/

/-- Well-shaped tokens with a `tokenPlaceholder` are placeholder tokens. -/
theorem tokenOK_placeholder_shape {a p : Str} (hok : tokenOKb a = true)
    (hpl : tokenPlaceholder a = some p) :
    ∃ sfx, a = '{' :: (p ++ '}' :: sfx) ∧ noBrace p = true ∧ noBrace sfx = true := by
  cases a with
  | nil => simp [tokenPlaceholder] at hpl
  | cons c rest =>
    rw [tokenPlaceholder] at hpl
    by_cases hc : c = '{'
    · rw [if_pos hc] at hpl
      rw [tokenOKb, if_pos hc] at hok
      cases hsp : placeholderSplit rest with
      | none => rw [hsp] at hpl; cases hpl
      | some pr =>
        obtain ⟨p0, sfx⟩ := pr
        rw [hsp] at hpl hok
        have hp0 : p0 = p := by
          simpa using hpl
        obtain ⟨hrest, hpnb⟩ := placeholderSplit_spec hsp
        exact ⟨sfx, by rw [hc, hrest, hp0], hp0 ▸ hpnb, by simpa using hok⟩
    · rw [if_neg hc] at hpl
      cases hpl

/-- A placeholder token with no binding for its body is never touched by
the substitution loop (no other key can match, whatever its value). -/
theorem substToken_missing (norm : List (Str × Str)) (p sfx : Str)
    (hp : noBrace p = true) (hs : noBrace sfx = true)
    (hmiss : List.lookup p norm = none) :
    substToken norm ('{' :: (p ++ '}' :: sfx)) = '{' :: (p ++ '}' :: sfx) := by
  induction norm with
  | nil => rfl
  | cons kv rest ih =>
    rw [List.lookup] at hmiss
    have hk : ¬(kv.1 = p) := by
      intro he
      rw [show (p == kv.1) = true by simp [he]] at hmiss
      cases hmiss
    have hrest : List.lookup p rest = none := by
      rwa [show (p == kv.1) = false by
        simp only [beq_eq_false_iff_ne, ne_eq]
        intro he
        exact hk he.symm] at hmiss
    show List.foldl _ _ _ = _
    rw [List.foldl_cons]
    have hstep := pyReplace_placeholder_token p sfx kv.1 kv.2 hp hs
    rw [show (substPattern kv.1) = '{' :: (kv.1 ++ ['}']) from rfl]
    rw [hstep, if_neg hk]
    exact ih hrest

/-- If some well-shaped template token's placeholder has no binding in the
normalized parameters, the token loop fails with the `KeyError` naming the
(partially substituted) offending token, which still carries a `{`. -/
theorem substAndCheck_missing (norm : List (Str × Str)) (args : List Str)
    (hbad : ∃ a ∈ args, ∃ p sfx, a = '{' :: (p ++ '}' :: sfx) ∧
      noBrace p = true ∧ noBrace sfx = true ∧ List.lookup p norm = none) :
    ∃ t2, substAndCheck norm args =
        .error (.keyError (str "Missing required parameter in template: " ++ t2)) ∧
      t2.contains '{' = true := by
  induction args with
  | nil => simp at hbad
  | cons a rest ih =>
    obtain ⟨a0, ha0, p, sfx, hshape, hp, hs, hmiss⟩ := hbad
    rw [substAndCheck]
    rcases List.mem_cons.mp ha0 with he | hmem
    · subst he
      subst hshape
      have hcond : (('{' :: (p ++ '}' :: sfx)).contains '{' &&
          ('{' :: (p ++ '}' :: sfx)).contains '}') = true := by
        rw [contains_of_mem (List.mem_cons_self _ _),
            contains_of_mem (by
              apply List.mem_cons_of_mem
              exact List.mem_append_right p (List.mem_cons_self _ _))]
        rfl
      rw [if_pos hcond]
      have hsub := substToken_missing norm p sfx hp hs hmiss
      rw [hsub]
      refine ⟨'{' :: (p ++ '}' :: sfx), ?_, contains_of_mem (List.mem_cons_self _ _)⟩
      rw [if_pos (by exact contains_of_mem (List.mem_cons_self _ _))]
    · obtain ⟨t2, herr, ht2⟩ := ih ⟨a0, hmem, p, sfx, hshape, hp, hs, hmiss⟩
      by_cases hcond : (a.contains '{' && a.contains '}') = true
      · rw [if_pos hcond]
        by_cases h2 : (substToken norm a).contains '{' = true
        · exact ⟨substToken norm a, by rw [if_pos h2], h2⟩
        · rw [if_neg h2, herr]
          exact ⟨t2, rfl, ht2⟩
      · rw [if_neg hcond, herr]
        exact ⟨t2, rfl, ht2⟩

/-! ## The embedded tool registry

The tool specifications of `specs/recon.py`, `specs/scanning.py` and
`specs/web.py`, transcribed with their operational fields.  (`get_all_specs`
also imports `vulnerability` and `exploitation` spec modules, which are not
present in the source tree and are therefore not embedded.) -/

def subfinderSpec : ToolSpec :=
  { name := str "subfinder", executableNames := [str "subfinder"],
    aliases := [str "finder", str "subdomain_discovery", str "subdomain_enum",
      str "subdomains"],
    commands :=
      [(str "enum",
        { args := [str "-d", str "{domain}", str "-silent"], timeout := 120 }),
       (str "enum_all",
        { args := [str "-d", str "{domain}", str "-all", str "-silent"],
          timeout := 300 })] }

def amassSpec : ToolSpec :=
  { name := str "amass", executableNames := [str "amass"],
    aliases := [str "mass", str "subdomain_bruteforce"],
    commands :=
      [(str "passive",
        { args := [str "enum", str "-passive", str "-d", str "{domain}"],
          timeout := 1200 }),
       (str "active",
        { args := [str "enum", str "-d", str "{domain}"], timeout := 1800 })] }

def whoisSpec : ToolSpec :=
  { name := str "whois", executableNames := [str "whois"],
    aliases := [str "whois_lookup", str "domain_whois", str "domain_info"],
    commands :=
      [(str "lookup",
        { args := [str "{target}"], timeout := 30, successCodes := [0, 1] })] }

def digSpec : ToolSpec :=
  { name := str "dig", executableNames := [str "dig"],
    aliases := [str "dns_enum", str "dns_lookup", str "dns_query",
      str "dns_recon"],
    commands :=
      [(str "any",
        { args := [str "@8.8.8.8", str "+short", str "ANY", str "{domain}"],
          timeout := 30 }),
       (str "mx",
        { args := [str "@8.8.8.8", str "+short", str "MX", str "{domain}"],
          timeout := 30 }),
       (str "ns",
        { args := [str "@8.8.8.8", str "+short", str "NS", str "{domain}"],
          timeout := 30 }),
       (str "txt",
        { args := [str "@8.8.8.8", str "+short", str "TXT", str "{domain}"],
          timeout := 30 }),
       (str "a",
        { args := [str "@8.8.8.8", str "+short", str "A", str "{domain}"],
          timeout := 30 })] }

def httpxSpec : ToolSpec :=
  { name := str "httpx", executableNames := [str "httpx"],
    aliases := [str "probe", str "web_probe", str "httpx_scan"],
    commands :=
      [(str "probe",
        { args := [str "-u", str "{url}", str "-sc", str "-title", str "-silent"],
          timeout := 120 }),
       (str "full",
        { args := [str "-u", str "{url}", str "-sc", str "-title", str "-td",
            str "-ip", str "-vhost", str "-silent"], timeout := 300 })] }

def katanaSpec : ToolSpec :=
  { name := str "katana", executableNames := [str "katana"],
    aliases := [str "crawler", str "spider", str "web_spider"],
    commands :=
      [(str "crawl",
        { args := [str "-u", str "{url}", str "-d", str "3", str "-silent"],
          timeout := 300 }),
       (str "js",
        { args := [str "-u", str "{url}", str "-jc", str "-d", str "2",
            str "-silent"], timeout := 300 })] }

def theHarvesterSpec : ToolSpec :=
  { name := str "theHarvester",
    executableNames := [str "theHarvester", str "theharvester"],
    aliases := [str "harvester", str "email_harvester", str "email_harvesting"],
    commands :=
      [(str "enum",
        { args := [str "-d", str "{domain}", str "-b", str "all"],
          timeout := 300 })] }

def bbotSpec : ToolSpec :=
  { name := str "bbot", executableNames := [str "bbot"],
    aliases := [str "bionic_bot", str "osint_scanner"],
    commands :=
      [(str "subdomain",
        { args := [str "-t", str "{target}", str "-f", str "subdomain-enum",
            str "-y"], timeout := 600 }),
       (str "quick",
        { args := [str "-t", str "{target}", str "-m", str "nmap", str "httpx",
            str "-y"], timeout := 300 })] }

def webSearchSpec : ToolSpec :=
  { name := str "web_search", executableNames := [],
    implementation := some (str "app.tools.implementations.websearch.search"),
    aliases := [str "google_search", str "online_recon", str "osint_search"],
    commands := [(str "search", { args := [str "{query}"], timeout := 60 })] }

def technologyDetectionSpec : ToolSpec :=
  { name := str "technology_detection", executableNames := [],
    implementation :=
      some (str "app.tools.implementations.web_tools.technology_detection"),
    aliases := [str "tech_detect", str "fingerprint", str "cms_detect"],
    commands := [(str "detect", { args := [], timeout := 60 })] }

def nmapScanSpec : ToolSpec :=
  { name := str "nmap_scan", executableNames := [str "nmap"],
    aliases := [str "nmap", str "port_scan", str "service_detection",
      str "os_detection"],
    commands :=
      [(str "quick",
        { args := [str "-T4", str "-F", str "-Pn", str "{target}"],
          timeout := 120 }),
       (str "full",
        { args := [str "-T4", str "-p-", str "-Pn", str "{target}"],
          timeout := 1800 }),
       (str "service",
        { args := [str "-sV", str "-T4", str "-Pn", str "{target}"],
          timeout := 600 }),
       (str "comprehensive",
        { args := [str "-sV", str "-Pn", str "-O", str "-T4", str "{target}"],
          timeout := 900, requiresSudo := true }),
       (str "vuln",
        { args := [str "--script", str "vuln", str "-T4", str "-Pn",
            str "{target}"], timeout := 600 })] }

def masscanSpec : ToolSpec :=
  { name := str "masscan", executableNames := [str "masscan"],
    commands :=
      [(str "top1000",
        { args := [str "--top-ports", str "1000", str "--rate=1000",
            str "{target}"], timeout := 300, requiresSudo := true }),
       (str "all",
        { args := [str "-p1-65535", str "--rate=10000", str "{target}"],
          timeout := 600, requiresSudo := true })] }

def naabuSpec : ToolSpec :=
  { name := str "naabu", executableNames := [str "naabu"],
    aliases := [str "naabu_scan", str "fast_port_scan"],
    commands :=
      [(str "scan",
        { args := [str "-host", str "{target}", str "-p", str "-",
            str "-silent"], timeout := 600 }),
       (str "top",
        { args := [str "-host", str "{target}", str "-top-ports", str "100",
            str "-silent"], timeout := 120 })] }

def sslscanSpec : ToolSpec :=
  { name := str "sslscan", executableNames := [str "sslscan"],
    aliases := [str "ssl_cert_scan", str "tls_scan"],
    commands := [(str "scan", { args := [str "{target}"], timeout := 300 })] }

def bannerGrabbingSpec : ToolSpec :=
  { name := str "banner_grabbing", executableNames := [],
    implementation :=
      some (str "app.tools.implementations.scanning_tools.banner_grabbing"),
    commands :=
      [(str "grab",
        { args := [str "{target}", str "{port}"], timeout := 30 })] }

def gobusterSpec : ToolSpec :=
  { name := str "gobuster", executableNames := [str "gobuster"],
    aliases := [str "directory_bruteforce", str "vhost_discovery"],
    commands :=
      [(str "dir",
        { args := [str "dir", str "-u", str "{url}", str "-w",
            str "/usr/share/wordlists/dirb/common.txt", str "-q"],
          timeout := 600 }),
       (str "vhost",
        { args := [str "vhost", str "-u", str "{url}", str "-w",
            str "/usr/share/wordlists/dirb/common.txt", str "-q"],
          timeout := 600 })] }

def ffufSpec : ToolSpec :=
  { name := str "ffuf", executableNames := [str "ffuf"],
    aliases := [str "fuzzer", str "web_fuzzer"],
    commands :=
      [(str "dir",
        { args := [str "-u", str "{url}/FUZZ", str "-w",
            str "/usr/share/wordlists/dirb/common.txt", str "-s"],
          timeout := 600 }),
       (str "param",
        { args := [str "-u", str "{url}?FUZZ=test", str "-w",
            str "/usr/share/wordlists/dirb/common.txt", str "-s"],
          timeout := 300 })] }

def niktoSpec : ToolSpec :=
  { name := str "nikto", executableNames := [str "nikto"],
    commands :=
      [(str "scan",
        { args := [str "-h", str "{url}", str "-C", str "all"],
          timeout := 600 })] }

def wpscanSpec : ToolSpec :=
  { name := str "wpscan", executableNames := [str "wpscan"],
    aliases := [str "wordpress_scan"],
    commands :=
      [(str "enum",
        { args := [str "--url", str "{url}", str "--enumerate", str "vp,vt,u",
            str "--batch"], timeout := 600 })] }

def curlSpec : ToolSpec :=
  { name := str "curl", executableNames := [str "curl"],
    aliases := [str "http_header_analysis", str "header_check",
      str "request_tool"],
    commands :=
      [(str "headers",
        { args := [str "-I", str "-L", str "-s", str "{url}"],
          timeout := 30 })] }

/-- `get_all_specs()` over the spec modules present in the source tree,
in import order. -/
def allSpecs : List ToolSpec :=
  [subfinderSpec, amassSpec, whoisSpec, digSpec, httpxSpec, katanaSpec,
   theHarvesterSpec, bbotSpec, webSearchSpec, technologyDetectionSpec,
   nmapScanSpec, masscanSpec, naabuSpec, sslscanSpec, bannerGrabbingSpec,
   gobusterSpec, ffufSpec, niktoSpec, wpscanSpec, curlSpec]

/-- `ToolSpec.find_executable`: a spec with an in-process implementation is
marked available with no executable path; otherwise the path (if any) comes
from the environment, abstracted here as the oracle `epath`, and
availability as the oracle `avail`. -/
def applyDiscovery (epath : Str → Option Str) (avail : Str → Bool)
    (s : ToolSpec) : ToolSpec :=
  { s with
    executablePath :=
      match s.implementation with
      | some _ => none
      | none => epath s.name,
    isAvailable := avail s.name }

/-- `ToolExecutor.__init__`: `_load_specs` (name dict plus alias dict; no
two registered aliases collide, so first-match association-list lookup is
dict lookup) followed by `_discover_tools`. -/
def mkExecState (epath : Str → Option Str) (avail : Str → Bool) : ExecState :=
  let specs := allSpecs.map (applyDiscovery epath avail)
  { specs := specs.map (fun s => (s.name, s)),
    aliases :=
      (specs.map (fun s => s.aliases.map (fun al => (al, s.name)))).flatten }

/-- Every template token of the embedded registry is well-shaped. -/
theorem allSpecs_tokensOK :
    (allSpecs.all (fun s => s.commands.all
      (fun ct => ct.2.args.all tokenOKb))) = true := by decide

/-- A successful `get_tool` returns a value of the specs dict. -/
theorem getTool_mem {ex : ExecState} {n : Str} {spec : ToolSpec}
    (h : getTool ex n = some spec) : ∃ k, (k, spec) ∈ ex.specs := by
  rw [getTool] at h
  cases h1 : List.lookup n ex.specs with
  | some s =>
    rw [h1] at h
    have : s = spec := Option.some.injEq .. ▸ h
    exact this ▸ lookup_mem_values h1
  | none =>
    rw [h1] at h
    cases h2 : List.lookup n ex.aliases with
    | some tn =>
      rw [h2] at h
      exact lookup_mem_values h
    | none => rw [h2] at h; cases h

/-- Specs resolved out of the built executor state are discovery-updated
registry specs. -/
theorem getTool_mkExecState {epath : Str → Option Str} {avail : Str → Bool}
    {n : Str} {spec : ToolSpec}
    (h : getTool (mkExecState epath avail) n = some spec) :
    ∃ s0 ∈ allSpecs, spec = applyDiscovery epath avail s0 := by
  obtain ⟨k, hk⟩ := getTool_mem h
  simp only [mkExecState, List.mem_map] at hk
  obtain ⟨s1, hs1, heq⟩ := hk
  obtain ⟨s0, hs0, hA⟩ := hs1
  have : s1 = spec := congrArg (fun x => x.2) heq
  exact ⟨s0, hs0, by rw [← this, ← hA]⟩

/-- All template tokens of a command of a registry spec are well-shaped. -/
theorem registry_template_tokensOK {epath : Str → Option Str}
    {avail : Str → Bool} {n cmdName : Str} {spec : ToolSpec}
    {template : CommandTemplate}
    (hspec : getTool (mkExecState epath avail) n = some spec)
    (hcmd : List.lookup cmdName spec.commands = some template) :
    ∀ a ∈ template.args, tokenOKb a = true := by
  obtain ⟨s0, hs0, hA⟩ := getTool_mkExecState hspec
  have hcommands : spec.commands = s0.commands := by rw [hA]; rfl
  rw [hcommands] at hcmd
  obtain ⟨cn, hmem⟩ := lookup_mem_values hcmd
  have h1 := List.all_eq_true.mp allSpecs_tokensOK s0 hs0
  have h2 := List.all_eq_true.mp h1 (cn, template) hmem
  exact fun a ha => List.all_eq_true.mp h2 a ha

/-- Success form of `build_command_args`: known tool and command, all
placeholders bound after normalization, brace-free values. -/
theorem buildCommandArgs_ok {ex : ExecState} {toolName cmdName : Str}
    {params : List (Str × Str)} {spec : ToolSpec} {template : CommandTemplate}
    (hspec : getTool ex toolName = some spec)
    (hcmd : List.lookup cmdName spec.commands = some template)
    (hvals : valuesNoBrace (normalizeParams params) = true)
    (htok : ∀ a ∈ template.args, tokenOKb a = true)
    (hkeys : ∀ a ∈ template.args, ∀ p, tokenPlaceholder a = some p →
      (List.lookup p (normalizeParams params)).isSome = true) :
    ∃ out, buildCommandArgs ex toolName cmdName params = .ok (exeOf spec :: out) ∧
      ∀ o ∈ out, noBrace o = true := by
  obtain ⟨out, hout, hnb⟩ := substAndCheck_ok _ hvals template.args htok hkeys
  refine ⟨out, ?_, hnb⟩
  simp only [buildCommandArgs, hspec, hcmd, hout]

/-- Failure form of `build_command_args`: a template token whose
placeholder is unbound after normalization forces the `KeyError`. -/
theorem buildCommandArgs_missing {ex : ExecState} {toolName cmdName : Str}
    {params : List (Str × Str)} {spec : ToolSpec} {template : CommandTemplate}
    (hspec : getTool ex toolName = some spec)
    (hcmd : List.lookup cmdName spec.commands = some template)
    (hbad : ∃ a ∈ template.args, ∃ p sfx, a = '{' :: (p ++ '}' :: sfx) ∧
      noBrace p = true ∧ noBrace sfx = true ∧
      List.lookup p (normalizeParams params) = none) :
    ∃ t2, buildCommandArgs ex toolName cmdName params =
        .error (.keyError (str "Missing required parameter in template: " ++ t2)) ∧
      t2.contains '{' = true := by
  obtain ⟨t2, herr, ht2⟩ := substAndCheck_missing (normalizeParams params)
    template.args hbad
  refine ⟨t2, ?_, ht2⟩
  simp only [buildCommandArgs, hspec, hcmd, herr]

/-! ## Claims C4, C5, C6: command synthesis -/

/-- C4: For every tool/command pair of the embedded registry and every
parameter mapping that, after normalization, lacks a key for some
placeholder appearing in a template token, `build_command_args` fails with
the `KeyError` (`TemplateBindingError`) whose message names the offending
token, which still carries an unresolved `{`; in particular, for tool
`nmap_scan`, command `quick`, and empty parameters, it fails referencing
`{target}`. -/
theorem claim_C4 :
    (∀ (e : Str → Option Str) (v : Str → Bool) (toolName cmdName : Str)
      (params : List (Str × Str)) (spec : ToolSpec) (template : CommandTemplate),
      getTool (mkExecState e v) toolName = some spec →
      List.lookup cmdName spec.commands = some template →
      (∃ a ∈ template.args, ∃ p, tokenPlaceholder a = some p ∧
        List.lookup p (normalizeParams params) = none) →
      ∃ t2, buildCommandArgs (mkExecState e v) toolName cmdName params =
          .error (.keyError (str "Missing required parameter in template: " ++ t2)) ∧
        t2.contains '{' = true) ∧
    (∀ (e : Str → Option Str) (v : Str → Bool),
      buildCommandArgs (mkExecState e v) (str "nmap_scan") (str "quick") [] =
        .error (.keyError (str "Missing required parameter in template: {target}"))) := by
  constructor
  · intro e v toolName cmdName params spec template hspec hcmd hbad
    obtain ⟨a, ha, p, hpl, hmiss⟩ := hbad
    have htok := registry_template_tokensOK hspec hcmd a ha
    obtain ⟨sfx, hshape, hpnb, hsnb⟩ := tokenOK_placeholder_shape htok hpl
    exact buildCommandArgs_missing hspec hcmd
      ⟨a, ha, p, sfx, hshape, hpnb, hsnb, hmiss⟩
  · intro e v
    have hg : getTool (mkExecState e v) (str "nmap_scan") =
        some (applyDiscovery e v nmapScanSpec) := rfl
    have hcmd : List.lookup (str "quick") (applyDiscovery e v nmapScanSpec).commands =
        some { args := [str "-T4", str "-F", str "-Pn", str "{target}"],
               timeout := 120 } := rfl
    have hsc : substAndCheck (normalizeParams [])
        [str "-T4", str "-F", str "-Pn", str "{target}"] =
        .error (.keyError (str "Missing required parameter in template: {target}")) := rfl
    simp only [buildCommandArgs, hg, hcmd, hsc]

theorem claim_C4_witness :
    ∃ t2, buildCommandArgs (mkExecState (fun _ => none) (fun _ => false))
        (str "nmap_scan") (str "quick") [] =
      .error (.keyError (str "Missing required parameter in template: " ++ t2)) ∧
      t2.contains '{' = true :=
  claim_C4.1 (fun _ => none) (fun _ => false) _ _ _ _ _ rfl rfl
    ⟨str "{target}", by decide, str "target", by decide, by decide⟩

/-- C5 counterexample: with tool `nmap_scan`, command `quick`, and the
parameter mapping `{target: "{"}`, every placeholder of the command's
template tokens has a matching key after normalization, yet
`build_command_args` raises the `KeyError` instead of succeeding: a
parameter value containing a brace defeats the claimed guarantee. -/
theorem claim_C5_counterexample :
    ∃ template,
      List.lookup (str "quick") nmapScanSpec.commands = some template ∧
      (∀ a ∈ template.args, ∀ p, tokenPlaceholder a = some p →
        (List.lookup p (normalizeParams [(str "target", str "\x7b")])).isSome = true) ∧
      buildCommandArgs (mkExecState (fun _ => none) (fun _ => false))
          (str "nmap_scan") (str "quick") [(str "target", str "\x7b")] =
        .error (.keyError (str "Missing required parameter in template: \x7b")) := by
  refine ⟨_, rfl, by decide, rfl⟩

/-- C5 (amended): for every tool/command of the embedded registry and every
parameter mapping in which every template placeholder has a matching key
after normalization **and every parameter value is brace-free**,
`build_command_args` succeeds; provided the resolved executable path is
brace-free, the returned argument vector contains no literal `{` or `}` in
any token. -/
theorem claim_C5 :
    ∀ (e : Str → Option Str) (v : Str → Bool) (toolName cmdName : Str)
      (params : List (Str × Str)) (spec : ToolSpec) (template : CommandTemplate),
      getTool (mkExecState e v) toolName = some spec →
      List.lookup cmdName spec.commands = some template →
      valuesNoBrace params = true →
      noBrace (exeOf spec) = true →
      (∀ a ∈ template.args, ∀ p, tokenPlaceholder a = some p →
        (List.lookup p (normalizeParams params)).isSome = true) →
      ∃ out, buildCommandArgs (mkExecState e v) toolName cmdName params = .ok out ∧
        ∀ o ∈ out, noBrace o = true := by
  intro e v toolName cmdName params spec template hspec hcmd hvals hexe hkeys
  have htok := registry_template_tokensOK hspec hcmd
  obtain ⟨out, hout, hnb⟩ := buildCommandArgs_ok hspec hcmd
    (normalizeParams_values hvals) htok hkeys
  refine ⟨exeOf spec :: out, hout, ?_⟩
  intro o ho
  rcases List.mem_cons.mp ho with h | h
  · exact h ▸ hexe
  · exact hnb o h

theorem claim_C5_witness :
    ∃ out, buildCommandArgs (mkExecState (fun _ => none) (fun _ => false))
        (str "nmap_scan") (str "quick") [(str "target", str "10.0.0.1")] = .ok out ∧
      ∀ o ∈ out, noBrace o = true :=
  claim_C5 (fun _ => none) (fun _ => false) _ _ _ _ _ rfl rfl (by decide)
    (by decide) (by decide)

/-- C6: synthesizing tool `nmap_scan`, command `quick`, with parameters
`{target: "10.0.0.1"}` returns exactly the vector whose first element is
the resolved nmap executable path (or the bare tool name literal when no
path was discovered) followed by `-T4 -F -Pn 10.0.0.1` in that order. -/
theorem claim_C6 (e : Str → Option Str) (v : Str → Bool) :
    buildCommandArgs (mkExecState e v) (str "nmap_scan") (str "quick")
      [(str "target", str "10.0.0.1")] =
    .ok ((e (str "nmap_scan")).getD (str "nmap_scan") ::
      [str "-T4", str "-F", str "-Pn", str "10.0.0.1"]) := by
  have hg : getTool (mkExecState e v) (str "nmap_scan") =
      some (applyDiscovery e v nmapScanSpec) := rfl
  have hcmd : List.lookup (str "quick") (applyDiscovery e v nmapScanSpec).commands =
      some { args := [str "-T4", str "-F", str "-Pn", str "{target}"],
             timeout := 120 } := rfl
  have hsc : substAndCheck (normalizeParams [(str "target", str "10.0.0.1")])
      [str "-T4", str "-F", str "-Pn", str "{target}"] =
      .ok [str "-T4", str "-F", str "-Pn", str "10.0.0.1"] := rfl
  simp only [buildCommandArgs, hg, hcmd, hsc]
  cases he : e (str "nmap_scan") with
  | none => simp [exeOf, applyDiscovery, nmapScanSpec, he]
  | some p => simp [exeOf, applyDiscovery, nmapScanSpec, he]

/-! ## Session schemas (`backend/app/schemas/session.py`) -/

/-- `AgentMode`. -/
inductive AgentMode where
  | hitl
  | auto
deriving DecidableEq, Repr

/-- `RiskLevel`. -/
inductive RiskLevel where
  | low
  | medium
  | high
  | critical
deriving DecidableEq, Repr

/-- `PendingAction` (timestamps as abstract ticks). -/
structure PendingAction where
  actionId : Str
  toolName : Str
  target : Str
  command : Str
  description : Str
  riskLevel : RiskLevel := .low
  estimatedTime : Option Str := none
  createdAt : Nat := 0
deriving DecidableEq, Repr

/-- `SessionState`. -/
structure SessionState where
  sessionId : Str
  mode : AgentMode := .hitl
  currentTarget : Option Str := none
  currentTargetId : Option Str := none
  pendingAction : Option PendingAction := none
  history : List Str := []
  createdAt : Nat := 0
  updatedAt : Nat := 0
deriving DecidableEq, Repr

/-- `SessionState.set_pending_action`. -/
def SessionState.setPendingAction (s : SessionState) (a : PendingAction)
    (now : Nat) : SessionState :=
  { s with pendingAction := some a, updatedAt := now }

/-- `SessionState.clear_pending_action`: returns the cleared action and
the mutated session. -/
def SessionState.clearPendingAction (s : SessionState) (now : Nat) :
    Option PendingAction × SessionState :=
  (s.pendingAction, { s with pendingAction := none, updatedAt := now })

/-- `SessionState.switch_mode`. -/
def SessionState.switchMode (s : SessionState) (m : AgentMode)
    (now : Nat) : SessionState :=
  { s with mode := m, updatedAt := now }

/-! ## Orchestrator (`backend/app/agents/orchestrator.py`) -/

/-- Python `x or fallback` on an optional string (`None` and `""` are
falsy). -/
def pyOrStr : Option Str → Str → Str
  | some t, fb => if t = [] then fb else t
  | none, fb => fb

/-- `{**d, k: v}`: update the key in place if present, else append. -/
def dictSet (ps : List (Str × Str)) (k v : Str) : List (Str × Str) :=
  if (List.lookup k ps).isSome then
    ps.map (fun kv => if kv.1 == k then (kv.1, v) else kv)
  else ps ++ [(k, v)]

/-- `ToolExecutor.get_command_string`: shell-joined synthesized vector. -/
def getCommandString (ex : ExecState) (toolName cmdName : Str)
    (params : List (Str × Str)) : Except ExecError Str :=
  match buildCommandArgs ex toolName cmdName params with
  | .ok args => .ok (List.intercalate [' '] args)
  | .error e => .error e

/-- One `executor.execute_tool` invocation as observed by the session
layer (tool name, parameter dict, session tag). -/
structure ExecCall where
  toolName : Str
  parameters : List (Str × Str)
  sessionId : Str
deriving DecidableEq, Repr

/-- Outcome of the `try` block around execution in the orchestrator
(the executor returns a result dict, or the awaited call raises). -/
inductive ExecOutcome where
  | result (success : Bool) (rawOutput : Str) (error : Str)
  | raised (msg : Str)
deriving DecidableEq, Repr

/-- The response value produced by the risk-gating tail of
`handle_request` (content prose omitted; the discriminating structure is
kept). -/
inductive HandleResponse where
  | confirmationRequired (pending : PendingAction)
  | autoExecuted (executedCommand : Str) (raised : Bool)
deriving DecidableEq, Repr

/-- Observable effects of the risk-gating tail of `handle_request`. -/
structure HandleResult where
  session : SessionState
  terminalWrite : Option Str
  executorCall : Option ExecCall
  response : HandleResponse
deriving DecidableEq, Repr

/-- The decision tail of `PentestOrchestrator.handle_request`
(orchestrator.py lines 203–297), entered after RAG selection succeeded:
compute the command string (falling back to
`selection.get_command_string`, supplied as the oracle `fallbackCmd`,
when spec building raises), gate on mode and risk, and either store a
`PendingAction` and ask for confirmation or write to the interactive
terminal and execute.  `newId`/`now` stand for the generated UUID and
clock; `execRaised` is the auto-path `try` outcome. -/
def handleSelection (ex : ExecState) (session : SessionState)
    (selTool : Str) (selCommand : Option Str) (selParams : List (Str × Str))
    (selReasoning : Str) (selRisk : RiskLevel) (analysisTargets : List Str)
    (fallbackCmd : Str) (newId : Str) (now : Nat) (execRaised : Bool) :
    HandleResult :=
  let execParams := dictSet selParams (str "target")
    (pyOrStr session.currentTarget (str "target"))
  let cmdStr :=
    match getCommandString ex selTool (pyOrStr selCommand (str "default"))
        execParams with
    | .ok s => s
    | .error _ => fallbackCmd
  let isCritical := selRisk = RiskLevel.high ∨ selRisk = RiskLevel.critical
  let needsConfirmation := session.mode = AgentMode.hitl ∨ isCritical
  if needsConfirmation then
    let pending : PendingAction :=
      { actionId := newId,
        toolName := selTool,
        target := pyOrStr session.currentTarget
          (match analysisTargets with
           | t :: _ => t
           | [] => str "unknown"),
        command := cmdStr,
        description := selReasoning,
        riskLevel := selRisk,
        createdAt := now }
    { session := session.setPendingAction pending now,
      terminalWrite := none,
      executorCall := none,
      response := .confirmationRequired pending }
  else
    { session := session,
      terminalWrite := some (cmdStr ++ ['\n']),
      executorCall := some
        { toolName := selTool, parameters := execParams,
          sessionId := session.sessionId },
      response := .autoExecuted cmdStr execRaised }

/-- The response value of `confirm_action`: the three distinct error
dicts, the rejection notice, and the post-execution response. -/
inductive ConfirmResponse where
  | errorResp (content : Str)
  | rejected (toolName target : Str)
  | executed (command : Str) (success : Bool)
deriving DecidableEq, Repr

/-- Observable effects of `confirm_action`. -/
structure ConfirmResult where
  sessions : List (Str × SessionState)
  terminalWrite : Option Str
  executorCall : Option ExecCall
  response : ConfirmResponse
deriving DecidableEq, Repr

/-- In-place mutation of the session object held in `self.sessions`. -/
def updateSession (ss : List (Str × SessionState)) (k : Str)
    (v : SessionState) : List (Str × SessionState) :=
  ss.map (fun kv => if kv.1 == k then (kv.1, v) else kv)

/-- `PentestOrchestrator.confirm_action`: session lookup, pending-action
guard, action-id guard, unconditional clear, reject or execute (with the
Python-truthiness edited-command override: `edited_command if
edited_command else pending.command`). -/
def confirmAction (sessions : List (Str × SessionState))
    (sessionId actionId : Str) (approved : Bool) (editedCommand : Option Str)
    (now : Nat) (execOutcome : ExecOutcome) : ConfirmResult :=
  match List.lookup sessionId sessions with
  | none =>
    { sessions := sessions, terminalWrite := none, executorCall := none,
      response := .errorResp (str "Session not found") }
  | some session =>
    match session.pendingAction with
    | none =>
      { sessions := sessions, terminalWrite := none, executorCall := none,
        response := .errorResp (str "No pending action to confirm") }
    | some pa =>
      if pa.actionId ≠ actionId then
        { sessions := sessions, terminalWrite := none, executorCall := none,
          response := .errorResp (str "Action ID mismatch") }
      else
        let pending := pa
        let session2 := (session.clearPendingAction now).2
        let sessions2 := updateSession sessions sessionId session2
        if ¬approved then
          { sessions := sessions2, terminalWrite := none, executorCall := none,
            response := .rejected pending.toolName pending.target }
        else
          let command :=
            match editedCommand with
            | some e => if e ≠ [] then e else pending.command
            | none => pending.command
          let call : ExecCall :=
            { toolName := pending.toolName,
              parameters := [(str "target", pending.target),
                (str "domain", pending.target), (str "url", pending.target)],
              sessionId := sessionId }
          match execOutcome with
          | .raised msg =>
            { sessions := sessions2, terminalWrite := some (command ++ ['\n']),
              executorCall := some call,
              response := .errorResp (str "Critical error during execution: " ++ msg) }
          | .result s _ _ =>
            { sessions := sessions2, terminalWrite := some (command ++ ['\n']),
              executorCall := some call,
              response := .executed command s }

/-! ## Claims C1, C2, C3, C10: the confirmation state machine -/

theorem lookup_updateSession {ss : List (Str × SessionState)} {k : Str}
    {v s : SessionState} (h : List.lookup k ss = some s) :
    List.lookup k (updateSession ss k v) = some v := by
  induction ss with
  | nil => simp [List.lookup] at h
  | cons kv rest ih =>
    obtain ⟨k1, sval⟩ := kv
    rw [List.lookup] at h
    rw [updateSession, List.map_cons]
    by_cases hb : (k == k1) = true
    · have hk : k = k1 := (beq_iff_eq ..).mp hb
      subst hk
      rw [if_pos (by simp)]
      simp [List.lookup]
    · have hb2 : ¬((k1, sval).1 == k) = true := by
        simp only [beq_iff_eq] at hb ⊢
        exact fun he => hb he.symm
      rw [if_neg hb2]
      rw [Bool.not_eq_true] at hb
      simp only [List.lookup] at h ⊢
      rw [hb] at h ⊢
      exact ih h

/-- C1: for every session and selected action, the risk gate stores a
`PendingAction` and executes nothing exactly when the session mode is
`hitl` or the selected risk is `high`/`critical`; in `auto` mode with risk
below `high` it executes immediately (terminal write plus executor call)
and never creates a `PendingAction`.  In particular high/critical risk is
never auto-executed, even in `auto` mode. -/
theorem claim_C1 (ex : ExecState) (session : SessionState) (selTool : Str)
    (selCommand : Option Str) (selParams : List (Str × Str))
    (selReasoning : Str) (selRisk : RiskLevel) (analysisTargets : List Str)
    (fallbackCmd : Str) (newId : Str) (now : Nat) (execRaised : Bool) :
    ∀ r : HandleResult, r = handleSelection ex session selTool selCommand
      selParams selReasoning selRisk analysisTargets fallbackCmd newId now
      execRaised →
    ((session.mode = .hitl ∨ selRisk = .high ∨ selRisk = .critical) →
      r.executorCall = none ∧ r.terminalWrite = none ∧
      ∃ pa, r.response = .confirmationRequired pa ∧
        r.session.pendingAction = some pa ∧ pa.riskLevel = selRisk) ∧
    (session.mode = .auto → selRisk ≠ .high → selRisk ≠ .critical →
      (r.executorCall.isSome = true ∧ r.terminalWrite.isSome = true) ∧
      r.session.pendingAction = session.pendingAction ∧
      ∀ pa, r.response ≠ .confirmationRequired pa) := by
  intro r hr
  subst hr
  constructor
  · intro h
    show (handleSelection ..).executorCall = none ∧ _
    simp only [handleSelection.eq_def]
    rw [if_pos h]
    exact ⟨rfl, rfl, _, rfl, rfl, rfl⟩
  · intro hmode hh hc
    have hneg : ¬(session.mode = AgentMode.hitl ∨
        (selRisk = RiskLevel.high ∨ selRisk = RiskLevel.critical)) := by
      rintro (h | h | h)
      · rw [hmode] at h; cases h
      · exact hh h
      · exact hc h
    show ((handleSelection ..).executorCall.isSome = true ∧ _) ∧ _
    simp only [handleSelection.eq_def]
    rw [if_neg hneg]
    exact ⟨⟨rfl, rfl⟩, rfl, fun pa h => by cases h⟩

/-- A shared concrete pending action and session for witnesses. -/
def examplePending : PendingAction :=
  { actionId := str "a1", toolName := str "nmap_scan",
    target := str "10.0.0.1", command := str "nmap -T4 -F -Pn 10.0.0.1",
    description := str "fast scan", riskLevel := .high }

/-- A shared concrete session holding `examplePending`. -/
def exampleSession : SessionState :=
  { sessionId := str "s1", mode := .hitl,
    currentTarget := some (str "10.0.0.1"),
    pendingAction := some examplePending }

theorem claim_C1_witness :
    ((handleSelection (mkExecState (fun _ => none) (fun _ => false))
        { sessionId := str "s1", mode := .hitl } (str "nmap_scan") none []
        (str "why") .low [] (str "fb") (str "id1") 3 false).executorCall = none ∧
      (handleSelection (mkExecState (fun _ => none) (fun _ => false))
        { sessionId := str "s1", mode := .hitl } (str "nmap_scan") none []
        (str "why") .low [] (str "fb") (str "id1") 3 false).terminalWrite = none) ∧
    ((handleSelection (mkExecState (fun _ => none) (fun _ => false))
        { sessionId := str "s1", mode := .auto } (str "nmap_scan") none []
        (str "why") .low [] (str "fb") (str "id1") 3 false).executorCall.isSome
        = true ∧
      (handleSelection (mkExecState (fun _ => none) (fun _ => false))
        { sessionId := str "s1", mode := .auto } (str "nmap_scan") none []
        (str "why") .low [] (str "fb") (str "id1") 3 false).session.pendingAction
        = none) := by
  constructor
  · have h := (claim_C1 (mkExecState (fun _ => none) (fun _ => false))
      { sessionId := str "s1", mode := .hitl } (str "nmap_scan") none []
      (str "why") .low [] (str "fb") (str "id1") 3 false _ rfl).1 (Or.inl rfl)
    exact ⟨h.1, h.2.1⟩
  · have h := (claim_C1 (mkExecState (fun _ => none) (fun _ => false))
      { sessionId := str "s1", mode := .auto } (str "nmap_scan") none []
      (str "why") .low [] (str "fb") (str "id1") 3 false _ rfl).2 rfl
      (by decide) (by decide)
    exact ⟨h.1.1, h.2.1⟩

/-- C2 counterexample: the empty string is an edited command string, yet
approving with `edited_command = ""` executes the *stored* command (Python
truthiness: `edited_command if edited_command else pending.command`), not
the supplied edited string. -/
theorem claim_C2_counterexample :
    (confirmAction [(str "s1", exampleSession)] (str "s1") (str "a1") true
        (some (str "")) 7 (.result true [] [])).terminalWrite =
      some (examplePending.command ++ ['\n']) ∧
    (confirmAction [(str "s1", exampleSession)] (str "s1") (str "a1") true
        (some (str "")) 7 (.result true [] [])).response =
      .executed examplePending.command true ∧
    examplePending.command ≠ str "" := by
  refine ⟨rfl, rfl, by decide⟩

/-- C2 (amended): approving with no edited command — or with an *empty*
edited command, which Python treats as absent — pipes and reports the
stored command string verbatim; approving with a non-empty edited command
executes that edited string instead. -/
theorem claim_C2 (sessions : List (Str × SessionState)) (sessionId : Str)
    (session : SessionState) (pa : PendingAction) (editedCommand : Option Str)
    (now : Nat) (exec : ExecOutcome)
    (h1 : List.lookup sessionId sessions = some session)
    (h2 : session.pendingAction = some pa) :
    ((editedCommand = none ∨ editedCommand = some (str "")) →
      (confirmAction sessions sessionId pa.actionId true editedCommand now
        exec).terminalWrite = some (pa.command ++ ['\n'])) ∧
    (∀ e, editedCommand = some e → e ≠ [] →
      (confirmAction sessions sessionId pa.actionId true editedCommand now
        exec).terminalWrite = some (e ++ ['\n'])) := by
  constructor
  · intro he
    rw [confirmAction]
    simp only [h1, h2]
    rw [if_neg (by simp)]
    have he0 : (str "" : Str) = [] := rfl
    rcases he with he | he <;> subst he <;>
      cases exec <;> simp [he0]
  · intro e he hne
    subst he
    rw [confirmAction]
    simp only [h1, h2]
    rw [if_neg (by simp)]
    cases exec <;> simp [hne]

theorem claim_C2_witness :
    (confirmAction [(str "s1", exampleSession)] (str "s1")
        examplePending.actionId true (some (str "ls -la")) 7
        (.result true [] [])).terminalWrite =
      some (str "ls -la" ++ ['\n']) :=
  (claim_C2 [(str "s1", exampleSession)] (str "s1") exampleSession
    examplePending (some (str "ls -la")) 7 (.result true [] []) rfl rfl).2
    (str "ls -la") rfl (by decide)

/-- C3: confirming with a mismatched action identifier returns the
distinct "Action ID mismatch" error, writes nothing to the terminal,
executes nothing, and returns the session map — hence the pending action
and all other session state — completely unchanged. -/
theorem claim_C3 (sessions : List (Str × SessionState))
    (sessionId actionId : Str) (session : SessionState) (pa : PendingAction)
    (approved : Bool) (editedCommand : Option Str) (now : Nat)
    (exec : ExecOutcome)
    (h1 : List.lookup sessionId sessions = some session)
    (h2 : session.pendingAction = some pa)
    (h3 : pa.actionId ≠ actionId) :
    confirmAction sessions sessionId actionId approved editedCommand now exec =
      { sessions := sessions, terminalWrite := none, executorCall := none,
        response := .errorResp (str "Action ID mismatch") } := by
  rw [confirmAction]
  simp only [h1, h2]
  rw [if_pos h3]

theorem claim_C3_witness :
    confirmAction [(str "s1", exampleSession)] (str "s1") (str "other-id")
        true none 7 (.result true [] []) =
      { sessions := [(str "s1", exampleSession)], terminalWrite := none,
        executorCall := none,
        response := .errorResp (str "Action ID mismatch") } :=
  claim_C3 [(str "s1", exampleSession)] (str "s1") (str "other-id")
    exampleSession examplePending true none 7 (.result true [] []) rfl rfl
    (by decide)

/-- C10: a confirmation call whose identifier matches clears the pending
action unconditionally before any execution: afterwards the stored
session has no pending action, whether the action was approved or
rejected and whatever the execution outcome (including a raised
exception). -/
theorem claim_C10 (sessions : List (Str × SessionState)) (sessionId : Str)
    (session : SessionState) (pa : PendingAction) (approved : Bool)
    (editedCommand : Option Str) (now : Nat) (exec : ExecOutcome)
    (h1 : List.lookup sessionId sessions = some session)
    (h2 : session.pendingAction = some pa) :
    ∃ s2, List.lookup sessionId
        (confirmAction sessions sessionId pa.actionId approved editedCommand
          now exec).sessions = some s2 ∧
      s2.pendingAction = none := by
  rw [confirmAction]
  simp only [h1, h2]
  rw [if_neg (by simp)]
  have hupd := lookup_updateSession
    (v := (session.clearPendingAction now).2) h1
  cases approved with
  | false => exact ⟨_, by simpa using hupd, rfl⟩
  | true =>
    cases exec with
    | raised msg => exact ⟨_, by simpa using hupd, rfl⟩
    | result s o e => exact ⟨_, by simpa using hupd, rfl⟩

theorem claim_C10_witness :
    ∃ s2, List.lookup (str "s1")
        (confirmAction [(str "s1", exampleSession)] (str "s1")
          examplePending.actionId true none 7
          (.raised (str "boom"))).sessions = some s2 ∧
      s2.pendingAction = none :=
  claim_C10 [(str "s1", exampleSession)] (str "s1") exampleSession
    examplePending true none 7 (.raised (str "boom")) rfl rfl

/-! ## ToolRAG semantic search (`backend/app/tools/tool_rag.py`) -/

/-- `ToolCandidate` from `tool_knowledge.py` (similarity kept as `Float`
data; no arithmetic on it is modelled). -/
structure ToolCandidate where
  tool : Str
  command : Option Str := none
  similarity : Float
  description : Str
  riskLevel : RiskLevel
  template : Option Str := none
deriving Repr

/-- One row returned by the pgvector query (an external collaborator):
`(tool_name, command_name, description, risk_level, similarity)`. -/
structure DbRow where
  toolName : Str
  commandName : Option Str
  description : Str
  riskLevelStr : Str
  similarity : Float
deriving Repr

/-- `RiskLevel(risk_level) if risk_level in [r.value for r in RiskLevel]
else RiskLevel.LOW`. -/
def riskFromStr (s : Str) : RiskLevel :=
  if s = str "low" then .low
  else if s = str "medium" then .medium
  else if s = str "high" then .high
  else if s = str "critical" then .critical
  else .low

/-- The slice of a cached `ToolKnowledge` that `search` reads. -/
structure ToolCommandK where
  name : Str
  template : Str
deriving Repr

/-- The `_tools_cache` entry for one tool. -/
structure ToolKnowledgeK where
  tool : Str
  commands : List ToolCommandK
deriving Repr

/-- The `template` recovery in the row loop of `search`. -/
def templateFor (cache : List (Str × ToolKnowledgeK)) (toolName : Str)
    (commandName : Option Str) : Option Str :=
  match List.lookup toolName cache with
  | none => none
  | some tk =>
    match commandName with
    | none => none
    | some cn =>
      (tk.commands.find? (fun c => c.name == cn)).map (fun c => c.template)

/-- The row loop of `search`: build candidates, deduplicating by tool
name (first, i.e. best-ranked, row per tool wins). -/
def buildCandidates (cache : List (Str × ToolKnowledgeK)) :
    List DbRow → List Str → List ToolCandidate
  | [], _ => []
  | row :: rest, seen =>
    if row.toolName ∈ seen then buildCandidates cache rest seen
    else
      { tool := row.toolName, command := row.commandName,
        similarity := row.similarity, description := row.description,
        riskLevel := riskFromStr row.riskLevelStr,
        template := templateFor cache row.toolName row.commandName } ::
      buildCandidates cache rest (row.toolName :: seen)

/-- Outcome of `_get_embedding` (an HTTP call to Ollama): the decoded
embedding vector (possibly empty, when the reply has no `embedding`
key), or a raised exception (connection error or non-2xx status). -/
inductive EmbedOutcome where
  | ok (vec : List Float)
  | raised (msg : Str)
deriving Repr

/-- `ToolRAG.search`: the embedding call is awaited with **no**
`try`/`except`, so a raised exception propagates to the caller; only a
successfully returned empty vector short-circuits to `[]`. -/
def ragSearch (embed : EmbedOutcome) (rows : List DbRow)
    (cache : List (Str × ToolKnowledgeK)) : Except Str (List ToolCandidate) :=
  match embed with
  | .raised msg => .error msg
  | .ok vec =>
    if vec.isEmpty then .ok []
    else .ok (buildCandidates cache rows [])

/-- C7 counterexample: with the embedding backend unavailable (the HTTP
call raises), `search` does **not** return an empty candidate list — the
exception propagates to the caller. -/
theorem claim_C7_counterexample :
    ragSearch (.raised (str "connection refused")) [] [] =
      .error (str "connection refused") ∧
    ∀ l, ragSearch (.raised (str "connection refused")) [] [] ≠ .ok l := by
  exact ⟨rfl, fun l h => by cases h⟩

/-- C7 (amended): if the embedding call *returns* an empty vector,
`search` returns an empty candidate list; if the embedding call
*raises* (backend unavailable), `search` raises too — the exception
propagates to the caller. -/
theorem claim_C7 :
    (∀ (rows : List DbRow) (cache : List (Str × ToolKnowledgeK)),
      ragSearch (.ok []) rows cache = .ok []) ∧
    (∀ (msg : Str) (rows : List DbRow) (cache : List (Str × ToolKnowledgeK)),
      ragSearch (.raised msg) rows cache = .error msg) :=
  ⟨fun _ _ => rfl, fun _ _ _ => rfl⟩

/-! ## PTY streaming (`ToolExecutor._stream_pty`, POSIX branch) -/

/-- The `for char in decoded` loop: CR or LF flushes a nonempty buffer
as one logical line; other characters accumulate. Returns the flushed
lines and the new buffer. -/
def processChars (buffer : Str) : Str → List Str × Str
  | [] => ([], buffer)
  | c :: cs =>
    if c = '\r' ∨ c = '\n' then
      if buffer ≠ [] then
        let pr := processChars [] cs
        (buffer :: pr.1, pr.2)
      else processChars buffer cs
    else processChars (buffer ++ [c]) cs

/-- What one iteration of the read loop observes from the environment:
decoded bytes from `os.read` (empty chunk for end-of-file), an `EIO`
error (PTY end-of-file), or a quiet `select` interval together with
whether `process.poll()` reports an exited child. -/
inductive PtyEvent where
  | data (chunk : Str)
  | eio
  | quiet (exited : Bool)
deriving DecidableEq, Repr

/-- The `while True` read loop of `_stream_pty`.  Each trace element
carries the elapsed wall-clock at the top of the iteration and the
observed event.  Returns the yielded lines, the buffer at loop exit and
whether `process.terminate()` was called (the timeout branch), or `none`
when the oracle trace is exhausted before the loop exits (a run that is
not modelled). -/
def streamLoop (timeout : Nat) :
    List (Nat × PtyEvent) → Str → Option (List Str × Str × Bool)
  | [], _ => none
  | (t, ev) :: rest, buffer =>
    if t > timeout then some ([str "[TIMEOUT]"], buffer, true)
    else
      match ev with
      | .data chunk =>
        if chunk = [] then some ([], buffer, false)
        else
          let pr := processChars buffer chunk
          match streamLoop timeout rest pr.2 with
          | some (more, bf, term) => some (pr.1 ++ more, bf, term)
          | none => none
      | .eio => some ([], buffer, false)
      | .quiet exited =>
        if exited then some ([], buffer, false)
        else streamLoop timeout rest buffer

/-- `_stream_pty` as a whole: run the loop with an empty buffer, then the
`finally` block flushes a nonempty leftover buffer as one final line. -/
def streamPty (timeout : Nat) (trace : List (Nat × PtyEvent)) :
    Option (List Str × Bool) :=
  match streamLoop timeout trace [] with
  | some (lines, finalBuf, term) =>
    some (lines ++ (if finalBuf ≠ [] then [finalBuf] else []), term)
  | none => none

/-- Unfolding equation of `streamLoop` on a nonempty trace. -/
theorem streamLoop_cons (timeout t : Nat) (ev : PtyEvent)
    (rest : List (Nat × PtyEvent)) (buffer : Str) :
    streamLoop timeout ((t, ev) :: rest) buffer =
      if t > timeout then some ([str "[TIMEOUT]"], buffer, true)
      else
        match ev with
        | .data chunk =>
          if chunk = [] then some ([], buffer, false)
          else
            let pr := processChars buffer chunk
            match streamLoop timeout rest pr.2 with
            | some (more, bf, term) => some (pr.1 ++ more, bf, term)
            | none => none
        | .eio => some ([], buffer, false)
        | .quiet exited =>
          if exited then some ([], buffer, false)
          else streamLoop timeout rest buffer := rfl

/-- A loop run that terminated the child (the timeout branch) yielded the
sentinel as its final in-loop line. -/
theorem streamLoop_timeout_last {timeout : Nat} {trace : List (Nat × PtyEvent)}
    {buffer bf : Str} :
    ∀ {ls : List Str}, streamLoop timeout trace buffer = some (ls, bf, true) →
    ∃ pre, ls = pre ++ [str "[TIMEOUT]"] := by
  induction trace generalizing buffer with
  | nil => intro ls h; cases h
  | cons te rest ih =>
    obtain ⟨t, ev⟩ := te
    intro ls h
    rw [streamLoop_cons] at h
    by_cases ht : t > timeout
    · rw [if_pos ht] at h
      have h2 : ([str "[TIMEOUT]"], buffer, true) = (ls, bf, true) := by
        injection h
      have hl : [str "[TIMEOUT]"] = ls := congrArg (fun x => x.1) h2
      exact ⟨[], hl ▸ rfl⟩
    · rw [if_neg ht] at h
      cases ev with
      | data chunk =>
        replace h : (if chunk = [] then some (([] : List Str), buffer, false)
            else
              match streamLoop timeout rest (processChars buffer chunk).2 with
              | some (more, bf2, term) =>
                some ((processChars buffer chunk).1 ++ more, bf2, term)
              | none => none) = some (ls, bf, true) := h
        by_cases hch : chunk = []
        · rw [if_pos hch] at h
          have h2 : (([] : List Str), buffer, false) = (ls, bf, true) := by
            injection h
          have hfalse : (false : Bool) = true := congrArg (fun x => x.2.2) h2
          cases hfalse
        · rw [if_neg hch] at h
          cases hrec : streamLoop timeout rest (processChars buffer chunk).2 with
          | none => rw [hrec] at h; cases h
          | some pr3 =>
            obtain ⟨more, bf2, term2⟩ := pr3
            rw [hrec] at h
            have h2 : ((processChars buffer chunk).1 ++ more, bf2, term2)
                = (ls, bf, true) := by injection h
            have hterm : term2 = true := congrArg (fun x => x.2.2) h2
            have hls : (processChars buffer chunk).1 ++ more = ls :=
              congrArg (fun x => x.1) h2
            have hbf : bf2 = bf := congrArg (fun x => x.2.1) h2
            obtain ⟨pre, hpre⟩ := ih (hbf ▸ hterm ▸ hrec)
            exact ⟨(processChars buffer chunk).1 ++ pre, by
              rw [← hls, hpre, List.append_assoc]⟩
      | eio =>
        replace h : some (([] : List Str), buffer, false) = some (ls, bf, true) := h
        have h2 : (([] : List Str), buffer, false) = (ls, bf, true) := by
          injection h
        have hfalse : (false : Bool) = true := congrArg (fun x => x.2.2) h2
        cases hfalse
      | quiet exited =>
        replace h : (if exited = true then some (([] : List Str), buffer, false)
            else streamLoop timeout rest buffer) = some (ls, bf, true) := h
        cases exited with
        | true =>
          rw [if_pos rfl] at h
          have h2 : (([] : List Str), buffer, false) = (ls, bf, true) := by
            injection h
          have hfalse : (false : Bool) = true := congrArg (fun x => x.2.2) h2
          cases hfalse
        | false =>
          rw [if_neg (by simp)] at h
          exact ih h

/-- C8 counterexample: a 2-second timeout against a process that produced
partial output (`"partial"`, no newline) and then slept past the
deadline.  The process is terminated and the sentinel is emitted — but
the `finally` block flushes the partial buffer *after* it, so the last
line delivered to the sink is `"partial"`, not the sentinel. -/
theorem claim_C8_counterexample :
    streamPty 2 [(0, .data (str "partial")), (10, .quiet false)] =
      some ([str "[TIMEOUT]", str "partial"], true) ∧
    [str "[TIMEOUT]", str "partial"].getLast? = some (str "partial") ∧
    str "partial" ≠ str "[TIMEOUT]" := by
  refine ⟨rfl, rfl, by decide⟩

/-- C8 (amended): whenever a streamed run exceeds its timeout (the
terminate flag is set), the sentinel `[TIMEOUT]` line is emitted as the
last line of the read loop; any nonempty partial buffer is flushed as one
final line *after* the sentinel, so the sentinel is the last line
delivered exactly when the buffer was empty at the timeout. -/
theorem claim_C8 (timeout : Nat) (trace : List (Nat × PtyEvent))
    (lines : List Str) (h : streamPty timeout trace = some (lines, true)) :
    ∃ pre tl, lines = pre ++ str "[TIMEOUT]" :: tl ∧
      (tl = [] ∨ ∃ b, b ≠ [] ∧ tl = [b]) := by
  rw [streamPty] at h
  cases hrec : streamLoop timeout trace [] with
  | none => rw [hrec] at h; cases h
  | some pr =>
    obtain ⟨ls, bf, term⟩ := pr
    rw [hrec] at h
    have h2 : (ls ++ (if bf ≠ [] then [bf] else []), term) = (lines, true) := by
      injection h
    have hterm : term = true := congrArg (fun x => x.2) h2
    have hls : ls ++ (if bf ≠ [] then [bf] else []) = lines :=
      congrArg (fun x => x.1) h2
    obtain ⟨pre, hpre⟩ := streamLoop_timeout_last (hterm ▸ hrec)
    by_cases hbf : bf = []
    · refine ⟨pre, [], ?_, Or.inl rfl⟩
      rw [← hls, hpre, if_neg (by simp [hbf])]
      simp
    · refine ⟨pre, [bf], ?_, Or.inr ⟨bf, hbf, rfl⟩⟩
      rw [← hls, hpre, if_pos hbf]
      simp

theorem claim_C8_witness :
    ∃ pre tl,
      [str "hello", str "[TIMEOUT]", str "part"] = pre ++ str "[TIMEOUT]" :: tl ∧
      (tl = [] ∨ ∃ b, b ≠ [] ∧ tl = [b]) :=
  claim_C8 2 [(1, .data (str "hello\npart")), (5, .quiet false)]
    [str "hello", str "[TIMEOUT]", str "part"] rfl

/-! ## Captured execution and history
(`ToolExecutor.execute`, `_run_implementation`, `_record_history`) -/

/-- `ToolResult` (stdout/stderr already captured as text; timestamps and
elapsed time as abstract ticks; `parsed_data` as a string mapping). -/
structure ToolResult where
  success : Bool
  tool : Str
  command : Str
  output : Str
  error : Str := []
  exitCode : Int := 0
  elapsedTime : Nat := 0
  parsedData : List (Str × Str) := []
  executionId : Str
  timestamp : Nat
deriving DecidableEq, Repr

/-- One entry of `self.execution_history`. -/
structure HistoryEntry where
  id : Str
  tool : Str
  command : Str
  params : List (Str × Str)
  success : Bool
  agent : Option Str
  sessionId : Option Str
  time : Nat
  elapsed : Nat
deriving DecidableEq, Repr

/-- `ToolExecutor._record_history`: append one entry built from the
result. -/
def recordHistory (history : List HistoryEntry) (r : ToolResult)
    (params : List (Str × Str)) (agent sessionId : Option Str) :
    List HistoryEntry :=
  history ++ [{ id := r.executionId,
                tool := r.tool,
                command := r.command,
                params := params,
                success := r.success,
                agent := agent,
                sessionId := sessionId,
                time := r.timestamp,
                elapsed := r.elapsedTime }]

/-- The value returned by a dynamically resolved in-process
implementation: whether it is a dict, whether that dict has a
`success` key (and its value), the optional `raw_output` entry, the
`str(...)` rendering, and the dict content itself. -/
structure ImplValue where
  isDict : Bool
  hasSuccessKey : Bool := false
  successVal : Bool := true
  rawOutput : Option Str := none
  reprStr : Str
  asDict : List (Str × Str) := []
deriving DecidableEq, Repr

/-- Outcome of resolving and invoking the implementation routine
(`importlib` + `getattr` + call): a returned value or a raised
exception. -/
inductive ImplOutcome where
  | returns (val : ImplValue)
  | raises (msg : Str)
deriving DecidableEq, Repr

/-- `success = raw_res["success"]` when the dict declares one, else
`True`. -/
def implSuccess (v : ImplValue) : Bool :=
  if v.isDict && v.hasSuccessKey then v.successVal else true

/-- `output = raw_res.get("raw_output", str(raw_res))` when the dict
declares a success key, else `str(raw_res)`. -/
def implOutput (v : ImplValue) : Str :=
  if v.isDict && v.hasSuccessKey then v.rawOutput.getD v.reprStr else v.reprStr

/-- `parsed_data = raw_res if isinstance(raw_res, dict) else
`{"result": raw_res}`. -/
def implParsed (v : ImplValue) : List (Str × Str) :=
  if v.isDict then v.asDict else [(str "result", v.reprStr)]

/-- `ToolExecutor._run_implementation`.  The `except` branch builds the
error result and returns it **without** calling `_record_history`. -/
def runImplementation (history : List HistoryEntry) (spec : ToolSpec)
    (params : List (Str × Str)) (agent sessionId : Option Str)
    (impl : ImplOutcome) (newId : Str) (now : Nat) (elapsed : Nat) :
    ToolResult × List HistoryEntry :=
  match impl with
  | .raises msg =>
    ({ success := false, tool := spec.name, command := str "default",
       output := [], error := str "Implementation Error: " ++ msg,
       executionId := newId, timestamp := now }, history)
  | .returns v =>
    let res : ToolResult :=
      { success := implSuccess v, tool := spec.name, command := str "default",
        output := implOutput v, elapsedTime := elapsed,
        parsedData := implParsed v, executionId := newId, timestamp := now }
    (res, recordHistory history res params agent sessionId)

/-- Outcome of the `subprocess.run` call: a completed process (captured
stdout/stderr and return code) or a raised exception
(`TimeoutExpired`, launch failure, …). -/
inductive SubprocOutcome where
  | completed (stdout stderr : Str) (returncode : Int)
  | raised (msg : Str)
deriving DecidableEq, Repr

/-- Python whitespace test for `str.strip`. -/
def isPySpace (c : Char) : Bool :=
  c == ' ' || c == '\t' || c == '\n' || c == '\r' ||
  c == Char.ofNat 11 || c == Char.ofNat 12

/-- Python `str.strip()`. -/
def pyStrip (s : Str) : Str :=
  ((s.dropWhile isPySpace).reverse.dropWhile isPySpace).reverse

/-- `str(e)` for the exceptions `build_command_args` raises
(`str(KeyError(m))` renders the message quoted). -/
def errMsgOf : ExecError → Str
  | .valueError m => m
  | .keyError m => [quoteChar] ++ m ++ [quoteChar]

/-- The error `ToolResult` built by the `except` branch of `execute`. -/
def mkErrResult (toolName cmdName msg newId : Str) (now : Nat) : ToolResult :=
  { success := false, tool := toolName, command := cmdName, output := [],
    error := msg, executionId := newId, timestamp := now }

/-- `ToolExecutor.execute` (captured mode).  External effects are
oracles: `impl` for the in-process path, `sub` for the child process,
`parserFn` for the output-parser dispatch (an external collaborator),
`newId`/`now`/`elapsed` for UUID and clock.  Returns the result and the
new execution history. -/
def execute (ex : ExecState) (history : List HistoryEntry)
    (toolName cmdName : Str) (params : List (Str × Str))
    (agent sessionId : Option Str) (impl : ImplOutcome)
    (sub : SubprocOutcome) (parserFn : Str → List (Str × Str))
    (newId : Str) (now : Nat) (elapsed : Nat) :
    ToolResult × List HistoryEntry :=
  match getTool ex toolName with
  | none =>
    ({ success := false, tool := toolName, command := cmdName, output := [],
       error := str "Unknown tool: " ++ toolName, executionId := newId,
       timestamp := now }, history)
  | some spec =>
    if spec.implementation.isSome ∧ spec.executablePath = none then
      runImplementation history spec params agent sessionId impl newId now
        elapsed
    else
      match buildCommandArgs ex toolName cmdName params with
      | .error e =>
        let errRes := mkErrResult toolName cmdName (errMsgOf e) newId now
        (errRes, recordHistory history errRes params agent sessionId)
      | .ok _ =>
        match List.lookup cmdName spec.commands with
        | none =>
          -- unreachable: `build_command_args` already validated the
          -- command name; a `KeyError` here would be caught and recorded
          -- by the same `except` branch
          let errRes := mkErrResult toolName cmdName
            ([quoteChar] ++ cmdName ++ [quoteChar]) newId now
          (errRes, recordHistory history errRes params agent sessionId)
        | some tmpl =>
          match sub with
          | .raised msg =>
            let errRes := mkErrResult toolName cmdName msg newId now
            (errRes, recordHistory history errRes params agent sessionId)
          | .completed out err code =>
            let succ := code ∈ tmpl.successCodes
            let res : ToolResult :=
              { success := succ, tool := toolName, command := cmdName,
                output := pyStrip out,
                error := if succ then [] else pyStrip err,
                exitCode := code, elapsedTime := elapsed,
                parsedData := if succ then parserFn (pyStrip out) else [],
                executionId := newId, timestamp := now }
            (res, recordHistory history res params agent sessionId)

/-- C9 counterexample: an in-process tool (`banner_grabbing`) whose
implementation raises produces an error result but appends **no**
history entry — the except branch of `_run_implementation` returns
before `_record_history`. -/
theorem claim_C9_counterexample :
    (execute (mkExecState (fun _ => none) (fun _ => false)) []
        (str "banner_grabbing") (str "grab") [] none none
        (.raises (str "boom")) (.raised (str "unused")) (fun _ => [])
        (str "id-1") 4 1).2 = [] ∧
    (execute (mkExecState (fun _ => none) (fun _ => false)) []
        (str "banner_grabbing") (str "grab") [] none none
        (.raises (str "boom")) (.raised (str "unused")) (fun _ => [])
        (str "id-1") 4 1).1.error = str "Implementation Error: boom" := by
  exact ⟨rfl, rfl⟩

/-- C9 (amended): every execution of a known tool appends exactly one
history entry — carrying the result's identifier, tool, command, the
call's parameters, success flag, agent/session tags, timestamp and
elapsed time — before the result is returned, **except** the in-process
implementation path whose invocation raises (and the unknown-tool early
return), which append nothing. -/
theorem claim_C9 (ex : ExecState) (history : List HistoryEntry)
    (toolName cmdName : Str) (params : List (Str × Str))
    (agent sessionId : Option Str) (impl : ImplOutcome)
    (sub : SubprocOutcome) (parserFn : Str → List (Str × Str))
    (newId : Str) (now : Nat) (elapsed : Nat) :
    (getTool ex toolName = none →
      (execute ex history toolName cmdName params agent sessionId impl sub
        parserFn newId now elapsed).2 = history) ∧
    (∀ spec, getTool ex toolName = some spec →
      ((spec.implementation.isSome ∧ spec.executablePath = none) →
        (∀ msg, impl = .raises msg →
          (execute ex history toolName cmdName params agent sessionId impl
            sub parserFn newId now elapsed).2 = history) ∧
        (∀ v, impl = .returns v →
          (execute ex history toolName cmdName params agent sessionId impl
            sub parserFn newId now elapsed).2 =
          recordHistory history
            (execute ex history toolName cmdName params agent sessionId impl
              sub parserFn newId now elapsed).1 params agent sessionId)) ∧
      (¬(spec.implementation.isSome ∧ spec.executablePath = none) →
        (execute ex history toolName cmdName params agent sessionId impl sub
          parserFn newId now elapsed).2 =
        recordHistory history
          (execute ex history toolName cmdName params agent sessionId impl
            sub parserFn newId now elapsed).1 params agent sessionId)) := by
  constructor
  · intro hg
    simp only [execute, hg]
  · intro spec hg
    constructor
    · intro himpl
      constructor
      · intro msg hmsg
        subst hmsg
        simp only [execute, hg]
        rw [if_pos himpl]
        rfl
      · intro v hv
        subst hv
        simp only [execute, hg]
        rw [if_pos himpl]
        rfl
    · intro himpl
      simp only [execute, hg]
      rw [if_neg himpl]
      cases hb : buildCommandArgs ex toolName cmdName params with
      | error e => rfl
      | ok args =>
        cases hc : List.lookup cmdName spec.commands with
        | none => rfl
        | some tmpl => cases sub <;> rfl

theorem claim_C9_witness :
    (execute (mkExecState (fun _ => none) (fun _ => false)) []
        (str "whois") (str "lookup") [] none none
        (.returns { isDict := false, reprStr := [] })
        (.raised (str "No such file or directory")) (fun _ => [])
        (str "id-2") 9 2).2 =
      recordHistory []
        (execute (mkExecState (fun _ => none) (fun _ => false)) []
          (str "whois") (str "lookup") [] none none
          (.returns { isDict := false, reprStr := [] })
          (.raised (str "No such file or directory")) (fun _ => [])
          (str "id-2") 9 2).1 [] none none :=
  ((claim_C9 (mkExecState (fun _ => none) (fun _ => false)) []
    (str "whois") (str "lookup") [] none none
    (.returns { isDict := false, reprStr := [] })
    (.raised (str "No such file or directory")) (fun _ => [])
    (str "id-2") 9 2).2 _ rfl).2 (by decide)

end Firestarter
